import Mathlib

/-!
Verification development for the flake8 lint worker (lint.py).

The worker wraps several third-party checkers.  The wrapped libraries are
not part of this repository, so each checker is embedded as an abstract
function supplied through a `LintEnv` record; everything this file defines
beyond those abstract functions is a direct translation of the code in
lint.py: settings lookup and truthiness, the syntax-error diagnostic, the
gating of each checker, the global builtin-names extension, the final
string-keyed sort, the subprocess command line, the subprocess output
parser, and the config-file option extraction.
-/

namespace Flake8Worker

/-- A diagnostic tuple of the in-process runner: (line, column, message).
Line and column come from CPython AST nodes and the pep8 reporter, which
report non-negative integers. -/
abbrev Diag := Nat × Nat × String

/-- A value stored in the settings dictionary.  The worker only ever stores
booleans, integers, strings, lists of strings, or None in it. -/
inductive PyVal where
  | none
  | bool (b : Bool)
  | int (i : Int)
  | str (s : String)
  | strList (l : List String)
  deriving DecidableEq, Repr

/-- The settings mapping: a dictionary from option names to values. -/
abbrev Settings := List (String × PyVal)

/-- Models `settings.get(key, default)`. -/
def sget (s : Settings) (key : String) (default : PyVal) : PyVal :=
  match s.lookup key with
  | Option.some v => v
  | Option.none => default

/-- Python truthiness of a settings value, as used in `if settings.get(...)`. -/
def pyTruthy : PyVal → Bool
  | PyVal.none => false
  | PyVal.bool b => b
  | PyVal.int i => decide (i ≠ 0)
  | PyVal.str s => decide (s ≠ "")
  | PyVal.strList l => decide (l ≠ [])

/-- Python whitespace, as stripped by `str.strip()` and by `int()`. -/
def isPySpace (c : Char) : Bool :=
  c = ' ' || c = '\t' || c = '\n' || c = '\r' || c = '\x0b' || c = '\x0c'

/-- Models `str.strip()`: drop whitespace from both ends. -/
def pyStrip (s : String) : String :=
  String.mk (((s.data.dropWhile isPySpace).reverse.dropWhile isPySpace).reverse)

/-- Decimal digit characters to a number; fails on the empty list or on a
non-digit character. -/
def decDigits? (cs : List Char) : Option Nat :=
  match cs with
  | [] => Option.none
  | _ =>
    if cs.all (fun c => decide ('0' ≤ c) && decide (c ≤ '9')) then
      Option.some (cs.foldl (fun a c => a * 10 + (c.toNat - '0'.toNat)) 0)
    else
      Option.none

/-- Models Python `int(s)` on a string: surrounding whitespace is ignored,
an optional sign is allowed, the rest must be decimal digits.  (Numeric
underscores and non-ASCII digits, which Python also accepts, do not occur
in this program and are not modelled.) -/
def pyStrToInt? (s : String) : Option Int :=
  match (pyStrip s).data with
  | '-' :: rest => (decDigits? rest).map (fun n => -(n : Int))
  | '+' :: rest => (decDigits? rest).map (fun n => (n : Int))
  | cs => (decDigits? cs).map (fun n => (n : Int))

/-- Models `int(value)` on a settings value; `Option.none` is the
TypeError/ValueError outcome. -/
def pyIntConv : PyVal → Option Int
  | PyVal.int i => Option.some i
  | PyVal.bool b => Option.some (if b then 1 else 0)
  | PyVal.str s => pyStrToInt? s
  | _ => Option.none

/-- Iterating a settings value as a collection of strings, as done by
`set.union(value)`: a list yields its elements, a string yields its
characters as one-character strings.  (Other truthy values would raise a
TypeError in Python; they are not produced by this program.) -/
def pyIter : PyVal → List String
  | PyVal.strList l => l
  | PyVal.str s => s.data.map (fun c => String.mk [c])
  | _ => []

/-- Models `",".join(value)` for the builtins list. -/
def pyJoinComma : PyVal → String
  | PyVal.strList l => String.intercalate "," l
  | PyVal.str s => String.intercalate "," (s.data.map (fun c => String.mk [c]))
  | _ => ""

/-- Models `str(value)`, as applied to the complexity and line-length
settings when building the subprocess command line. -/
def pyStr : PyVal → String
  | PyVal.none => "None"
  | PyVal.bool b => if b then "True" else "False"
  | PyVal.int i => toString i
  | PyVal.str s => s
  | PyVal.strList l =>
      "[" ++ String.intercalate ", " (l.map (fun x => "\x27" ++ x ++ "\x27")) ++ "]"

/-- The detail tuple `exc.args[1]` of a compile exception.  CPython stores
either the four-tuple (filename, lineno, offset, text) for SyntaxError, or
a shorter (lineno, offset) pair; the code slices any tuple longer than two
down to elements 1 and 2. -/
inductive ExcDetails where
  /-- A detail tuple of length four; lint.py slices it to (lineno, offset). -/
  | full (filename : String) (lineno : Nat) (offset : Option Nat) (text : Option String)
  /-- A detail tuple of length two, used as-is. -/
  | pair (lineno : Nat) (offset : Option Nat)
  deriving DecidableEq, Repr

/-- A SyntaxError or TypeError raised by `compile`: the exception type name,
the message `exc.args[0]`, and the optional detail tuple `exc.args[1]`
(`Option.none` when `len(exc.args)` is at most one). -/
structure PyExc where
  typeName : String
  msg : String
  details : Option ExcDetails
  deriving DecidableEq, Repr

/-- The (line, column) pair the code extracts from a compile exception:
the sliced detail tuple when present, otherwise the default (1, 0). -/
def excPos (e : PyExc) : Nat × Option Nat :=
  match e.details with
  | Option.none => (1, Option.some 0)
  | Option.some (ExcDetails.full _ lineno offset _) => (lineno, offset)
  | Option.some (ExcDetails.pair lineno offset) => (lineno, offset)

/-- Models `offset[1] or 0`: a missing (None) column becomes 0. -/
def orZero : Option Nat → Nat
  | Option.none => 0
  | Option.some n => n

/-- The single diagnostic synthesized for a compile failure:
position from `excPos`, message `E901 <type name>: <message>`. -/
def excWarning (e : PyExc) : Diag :=
  ((excPos e).1, orZero (excPos e).2, "E901 " ++ e.typeName ++ ": " ++ e.msg)

/-- The external checker libraries wrapped by the worker, abstracted as
functions.  `Tree` is the type of the parsed syntax tree. -/
structure LintEnv (Tree : Type) where
  /-- pep8.StyleGuide(...).input_file: takes the ignore list and the
  max_line_length setting value, returns the collected style errors. -/
  pep8Check : List String → PyVal → List Diag
  /-- PEP257Checker().check_source over the raw source. -/
  pydocstyleCheck : String → List Diag
  /-- compile(lines, ..., ast.PyCF_ONLY_AST, ...): a tree, or a
  SyntaxError/TypeError. -/
  compileAst : String → Except PyExc Tree
  /-- pyflakes checker over the tree; the first argument is the value of
  the process-wide class attribute Checker.builtIns at the call. -/
  pyflakesCheck : Finset String → Tree → List Diag
  /-- pep8ext_naming.NamingChecker(tree, None).run. -/
  namingCheck : Tree → List Diag
  /-- flake8_debugger.check_tree_for_debugger_statements(tree, []). -/
  debuggerCheck : Tree → List Diag
  /-- ImportOrderLinter(tree, None, lines, order_style).run: the tree, the
  raw source, and the raw import_order_style setting value. -/
  importOrderCheck : Tree → String → PyVal → List Diag
  /-- mccabe.McCabeChecker with max_complexity set, run over the tree. -/
  mccabeCheck : Int → Tree → List Diag

/-- The process-wide pyflakes builtin-names set. -/
abbrev BuiltIns := Finset String

/-- settings.get("pep8", True) is truthy: run the style checker. -/
def runsPep8 (s : Settings) : Bool := pyTruthy (sget s "pep8" (PyVal.bool true))

/-- settings.get("pydocstyle", False) is truthy: run the docstring checker. -/
def runsPydocstyle (s : Settings) : Bool := pyTruthy (sget s "pydocstyle" (PyVal.bool false))

/-- settings.get("pyflakes", True) is truthy: run the pyflakes bug finder. -/
def runsPyflakes (s : Settings) : Bool := pyTruthy (sget s "pyflakes" (PyVal.bool true))

/-- settings.get("naming", True) is truthy: run the naming checker. -/
def runsNaming (s : Settings) : Bool := pyTruthy (sget s "naming" (PyVal.bool true))

/-- settings.get("debugger", True) is truthy: run the debugger checker. -/
def runsDebugger (s : Settings) : Bool := pyTruthy (sget s "debugger" (PyVal.bool true))

/-- settings.get("import_order", False) is truthy: run the import-order
checker. -/
def runsImportOrder (s : Settings) : Bool := pyTruthy (sget s "import_order" (PyVal.bool false))

/-- `int(settings.get("complexity", -1))`, with conversion failures mapped
to -1 by the surrounding try/except. -/
def complexityVal (s : Settings) : Int :=
  match pyIntConv (sget s "complexity" (PyVal.int (-1))) with
  | Option.some i => i
  | Option.none => -1

/-- The style-checker contribution: pep8 is invoked with the fixed
sentinel ignore list and the raw max_line_length setting value. -/
def pep8Part {Tree : Type} (env : LintEnv Tree) (s : Settings) : List Diag :=
  if runsPep8 s then env.pep8Check ["DIRTY-HACK"] (sget s "pep8_max_line_length" PyVal.none)
  else []

/-- The docstring-checker contribution. -/
def pydocPart {Tree : Type} (env : LintEnv Tree) (lines : String) (s : Settings) : List Diag :=
  if runsPydocstyle s then env.pydocstyleCheck lines else []

/-- The pyflakes builtIns class attribute after the pyflakes block: when
pyflakes runs and the builtins setting is truthy, the attribute is
replaced by its union with the supplied names; otherwise unchanged. -/
def pyflakesState (s : Settings) (st : BuiltIns) : BuiltIns :=
  if runsPyflakes s then
    if pyTruthy (sget s "builtins" PyVal.none) then
      st ∪ (pyIter (sget s "builtins" PyVal.none)).toFinset
    else st
  else st

/-- The pyflakes contribution, run against the updated builtIns set. -/
def pyflakesPart {Tree : Type} (env : LintEnv Tree) (s : Settings) (st : BuiltIns)
    (tree : Tree) : List Diag :=
  if runsPyflakes s then env.pyflakesCheck (pyflakesState s st) tree else []

/-- The naming-checker contribution. -/
def namingPart {Tree : Type} (env : LintEnv Tree) (s : Settings) (tree : Tree) : List Diag :=
  if runsNaming s then env.namingCheck tree else []

/-- The debugger-checker contribution. -/
def debuggerPart {Tree : Type} (env : LintEnv Tree) (s : Settings) (tree : Tree) : List Diag :=
  if runsDebugger s then env.debuggerCheck tree else []

/-- The import-order contribution; the style value is passed through raw. -/
def importOrderPart {Tree : Type} (env : LintEnv Tree) (lines : String) (s : Settings)
    (tree : Tree) : List Diag :=
  if runsImportOrder s then
    env.importOrderCheck tree lines (sget s "import_order_style" PyVal.none)
  else []

/-- The complexity contribution, gated on `complexity > -1`. -/
def mccabePart {Tree : Type} (env : LintEnv Tree) (s : Settings) (tree : Tree) : List Diag :=
  if complexityVal s > -1 then env.mccabeCheck (complexityVal s) tree else []

/-- The full warnings list accumulated by lint before the final sort:
style and docstring results, then either the single compile-failure
diagnostic or the tree-based results. -/
def collectWarnings {Tree : Type} (env : LintEnv Tree) (lines : String) (s : Settings)
    (st : BuiltIns) : List Diag :=
  pep8Part env s ++ pydocPart env lines s ++
    match env.compileAst lines with
    | Except.error e => [excWarning e]
    | Except.ok tree =>
        pyflakesPart env s st tree ++ namingPart env s tree ++ debuggerPart env s tree ++
          importOrderPart env lines s tree ++ mccabePart env s tree

/-- The builtIns class attribute after a lint call: updated only when the
source compiled and the pyflakes block ran. -/
def lintState {Tree : Type} (env : LintEnv Tree) (lines : String) (s : Settings)
    (st : BuiltIns) : BuiltIns :=
  match env.compileAst lines with
  | Except.error _ => st
  | Except.ok _ => pyflakesState s st

/-- Big-endian decimal digits of n, with explicit fuel (call with
fuel > n so the recursion completes). -/
def digitsBE (fuel n : Nat) : List Nat :=
  match fuel with
  | 0 => []
  | fuel' + 1 => if n < 10 then [n] else digitsBE fuel' (n / 10) ++ [n % 10]

/-- Models the format `09d` of a natural number: decimal digits padded
with leading zeros to width at least nine. -/
def pyFormat09 (n : Nat) : List Nat :=
  let ds := digitsBE (n + 1) n
  List.replicate (9 - ds.length) 0 ++ ds

/-- The sort key of a diagnostic: the formatted line digits followed by
the formatted column digits, compared as a string. -/
def sortKey (d : Diag) : List Nat := pyFormat09 d.1 ++ pyFormat09 d.2.1

/-- Lexicographic string comparison (at most), as Python compares the
zero-padded keys. -/
def lexLe : List Nat → List Nat → Bool
  | [], _ => true
  | _ :: _, [] => false
  | a :: as, b :: bs => decide (a < b) || (decide (a = b) && lexLe as bs)

/-- The comparison used by the final `sorted` call. -/
def keyRel (a b : Diag) : Prop := lexLe (sortKey a) (sortKey b) = true

instance : DecidableRel keyRel := fun a b =>
  inferInstanceAs (Decidable (lexLe (sortKey a) (sortKey b) = true))

/-- The final `sorted(warnings, key=...)`: a stable sort under the
string-key comparison. -/
def lintSort (ws : List Diag) : List Diag := List.insertionSort keyRel ws

/-- The in-process runner: returns the sorted diagnostics and the
builtIns class attribute after the call. -/
def lint {Tree : Type} (env : LintEnv Tree) (lines : String) (s : Settings)
    (st : BuiltIns) : List Diag × BuiltIns :=
  (lintSort (collectWarnings env lines s st), lintState env lines s st)

/-- The intended order on diagnostics: non-decreasing line, then
non-decreasing column for equal lines. -/
def diagLe (a b : Diag) : Prop := a.1 < b.1 ∨ (a.1 = b.1 ∧ a.2.1 ≤ b.2.1)

/-- A diagnostic parsed from subprocess output; `int()` can produce any
integer, so line and column are integers here. -/
abbrev ExtDiag := Int × Int × String

/-- Splitting a character list on a separator character; on the empty
list this yields one empty group, as Python `split` does. -/
def splitOnChar (c : Char) : List Char → List (List Char)
  | [] => [[]]
  | x :: xs =>
    match splitOnChar c xs with
    | [] => [[x]]
    | g :: gs => if x = c then [] :: g :: gs else (x :: g) :: gs

/-- Joining groups back with a colon, to rebuild the unsplit remainder. -/
def joinColon : List (List Char) → List Char
  | [] => []
  | [g] => g
  | g :: gs => g ++ ':' :: joinColon gs

/-- Models `line.split(":", 2)`: at most the first two colons split the
line; the remainder keeps its colons. -/
def pySplit2 (s : String) : List String :=
  match splitOnChar ':' s.data with
  | a :: b :: c :: rest => [String.mk a, String.mk b, String.mk (joinColon (c :: rest))]
  | parts => parts.map String.mk

/-- Parsing one line of subprocess output: strip it, split on at most two
colons, and require integer line and column fields; `Option.none` is the
line the code prints to the console and drops. -/
def parseOutputLine (line : String) : Option ExtDiag :=
  match pySplit2 (pyStrip line) with
  | [a, b, rest] =>
    match pyStrToInt? a, pyStrToInt? b with
    | Option.some i, Option.some j => Option.some (i, j, rest)
    | _, _ => Option.none
  | _ => Option.none

/-- Parsing the whole subprocess output: parsed lines are kept in output
order, malformed lines are dropped. -/
def parseExternalOutput (outLines : List String) : List ExtDiag :=
  outLines.filterMap parseOutputLine

/-- The `--import-order-style` value on the subprocess command line: the
configured value when it is exactly "cryptography" or "google", otherwise
"cryptography". -/
def iosStyleArg (s : Settings) : String :=
  match sget s "import_order_style" PyVal.none with
  | PyVal.str v => if v = "cryptography" || v = "google" then v else "cryptography"
  | _ => "cryptography"

/-- The command line built by lint_external, flag for flag. -/
def buildArgs (interpreter linter : String) (s : Settings) : List String :=
  [interpreter, linter] ++
    (if runsPyflakes s then
        ["--pyflakes"] ++
          (if pyTruthy (sget s "builtins" PyVal.none) then
              ["--builtins", pyJoinComma (sget s "builtins" PyVal.none)]
            else [])
      else []) ++
    (if runsPep8 s then
        ["--pep8", "--pep8-max-line-length", pyStr (sget s "pep8_max_line_length" (PyVal.int 79))]
      else []) ++
    (if runsPydocstyle s then ["--pydocstyle"] else []) ++
    (if runsNaming s then ["--naming"] else []) ++
    (if runsDebugger s then ["--debugger"] else []) ++
    (if runsImportOrder s then ["--import-order"] else []) ++
    ["--import-order-style", iosStyleArg s] ++
    ["--complexity", pyStr (sget s "complexity" (PyVal.int (-1)))]

/-- The out-of-process runner: the child process is abstracted as a
function from the command line and the source text to its combined
output lines; the parsed diagnostics are returned without sorting. -/
def lint_external (child : List String → String → List String) (lines : String)
    (s : Settings) (interpreter linter : String) : List ExtDiag :=
  parseExternalOutput (child (buildArgs interpreter linter s) lines)

/-- The parsed `[flake8]` section of a config file: option names mapped to
raw string values. -/
abbrev IniSection := List (String × String)

/-- Models `parser.get("flake8", name)` and `parser.has_option`. -/
def getOption (sec : IniSection) (name : String) : Option String := sec.lookup name

/-- The underscore-to-hyphen option-name normalization. -/
def underscoreToHyphen (s : String) : String :=
  String.mk (s.data.map (fun c => if c = '_' then '-' else c))

/-- Option lookup with the fallback the code performs: the underscore
spelling first, then the hyphenated spelling. -/
def lookupNorm (sec : IniSection) (name : String) : Option String :=
  match getOption sec name with
  | Option.some v => Option.some v
  | Option.none => getOption sec (underscoreToHyphen name)

/-- Models `value.split(",")`. -/
def pySplitComma (s : String) : List String :=
  (splitOnChar ',' s.data).map String.mk

/-- A list-valued option: the stripped value split on commas; absent, or
present but empty after stripping, leaves the key unset. -/
def parseListOpt (sec : IniSection) (name : String) : Option (List String) :=
  match lookupNorm sec name with
  | Option.some v => if pyStrip v = "" then Option.none else Option.some (pySplitComma (pyStrip v))
  | Option.none => Option.none

/-- An integer-valued option: the outer `Option.none` is the ValueError
`parser.getint` raises on a non-integer value; the inner option is key
presence. -/
def parseIntOpt (sec : IniSection) (name : String) : Option (Option Int) :=
  match lookupNorm sec name with
  | Option.none => Option.some Option.none
  | Option.some v =>
    if pyStrip v = "" then Option.some Option.none
    else
      match pyStrToInt? v with
      | Option.some i => Option.some (Option.some i)
      | Option.none => Option.none

/-- The settings dictionary load_flake8_config returns; an unset field is
a key absent from the dictionary. -/
structure Flake8Settings where
  ignore : Option (List String)
  select : Option (List String)
  ignore_files : Option (List String)
  pep8_max_line_length : Option Int
  deriving DecidableEq, Repr

/-- The config loader, given the parsed `[flake8]` section (`Option.none`
when no such section exists).  The outer `Option.none` is a propagated
`getint` failure. -/
def load_flake8_config (cfg : Option IniSection) : Option Flake8Settings :=
  match cfg with
  | Option.none =>
      Option.some
        { ignore := Option.none, select := Option.none, ignore_files := Option.none,
          pep8_max_line_length := Option.none }
  | Option.some sec =>
      (parseIntOpt sec "max_line_length").map (fun mll =>
        { ignore := parseListOpt sec "ignore", select := parseListOpt sec "select",
          ignore_files := parseListOpt sec "exclude", pep8_max_line_length := mll })

/-- The numeric value of a big-endian digit list. -/
def valD : List Nat → Nat
  | [] => 0
  | d :: ds => d * 10 ^ ds.length + valD ds

theorem valD_append (xs ys : List Nat) :
    valD (xs ++ ys) = valD xs * 10 ^ ys.length + valD ys := by
  induction xs with
  | nil => simp [valD]
  | cons x xs ih =>
    simp only [List.cons_append, valD, List.append_eq, List.length_append, ih]
    ring

theorem valD_lt (ds : List Nat) (h : ∀ d ∈ ds, d < 10) : valD ds < 10 ^ ds.length := by
  induction ds with
  | nil => simp [valD]
  | cons d ds ih =>
    have hd : d < 10 := h d (List.mem_cons_self d ds)
    have hds : valD ds < 10 ^ ds.length := ih (fun x hx => h x (List.mem_cons_of_mem d hx))
    calc d * 10 ^ ds.length + valD ds
        < d * 10 ^ ds.length + 10 ^ ds.length := by omega
      _ = (d + 1) * 10 ^ ds.length := by ring
      _ ≤ 10 * 10 ^ ds.length := by
          exact Nat.mul_le_mul_right _ (by omega)
      _ = 10 ^ (ds.length + 1) := by ring
      _ = 10 ^ (d :: ds).length := by simp

theorem lexLe_total (xs : List Nat) : ∀ ys, lexLe xs ys = true ∨ lexLe ys xs = true := by
  induction xs with
  | nil => intro ys; left; rfl
  | cons a as ih =>
    intro ys
    cases ys with
    | nil => right; rfl
    | cons b bs =>
      rcases Nat.lt_trichotomy a b with h | h | h
      · left; simp [lexLe, h]
      · rcases ih bs with h2 | h2
        · left; simp [lexLe, h, h2]
        · right; simp [lexLe, h, h2]
      · right; simp [lexLe, h]

theorem lexLe_trans (xs : List Nat) :
    ∀ ys zs, lexLe xs ys = true → lexLe ys zs = true → lexLe xs zs = true := by
  induction xs with
  | nil => intro ys zs _ _; rfl
  | cons a as ih =>
    intro ys zs hxy hyz
    cases ys with
    | nil => simp [lexLe] at hxy
    | cons b bs =>
      cases zs with
      | nil => simp [lexLe] at hyz
      | cons c cs =>
        simp only [lexLe, Bool.or_eq_true, Bool.and_eq_true, decide_eq_true_eq] at hxy hyz ⊢
        rcases hxy with h1 | ⟨h1, h1r⟩ <;> rcases hyz with h2 | ⟨h2, h2r⟩
        · left; omega
        · left; omega
        · left; omega
        · right; exact ⟨by omega, ih bs cs h1r h2r⟩

/-- On digit lists of equal length, the string comparison agrees with the
numeric comparison of the values. -/
theorem lexLe_eq_valD_le (xs : List Nat) :
    ∀ ys, xs.length = ys.length → (∀ d ∈ xs, d < 10) → (∀ d ∈ ys, d < 10) →
      (lexLe xs ys = true ↔ valD xs ≤ valD ys) := by
  induction xs with
  | nil =>
    intro ys hlen _ _
    cases ys with
    | nil => simp [lexLe, valD]
    | cons b bs => simp at hlen
  | cons a as ih =>
    intro ys hlen hx hy
    cases ys with
    | nil => simp at hlen
    | cons b bs =>
      have hlen' : as.length = bs.length := by simpa using hlen
      have ha : a < 10 := hx a (List.mem_cons_self a as)
      have hb : b < 10 := hy b (List.mem_cons_self b bs)
      have hxas : ∀ d ∈ as, d < 10 := fun d hd => hx d (List.mem_cons_of_mem a hd)
      have hybs : ∀ d ∈ bs, d < 10 := fun d hd => hy d (List.mem_cons_of_mem b hd)
      have hvas : valD as < 10 ^ as.length := valD_lt as hxas
      have hvbs : valD bs < 10 ^ bs.length := valD_lt bs hybs
      simp only [lexLe, Bool.or_eq_true, Bool.and_eq_true, decide_eq_true_eq, valD, hlen']
      rcases Nat.lt_trichotomy a b with h | h | h
      · have : a * 10 ^ bs.length + valD as ≤ b * 10 ^ bs.length + valD bs := by
          have h1 : a * 10 ^ bs.length + valD as < (a + 1) * 10 ^ bs.length := by
            have := hvas; rw [hlen'] at this; nlinarith
          have h2 : (a + 1) * 10 ^ bs.length ≤ b * 10 ^ bs.length :=
            Nat.mul_le_mul_right _ (by omega)
          omega
        constructor
        · intro _; exact this
        · intro _; left; exact h
      · subst h
        rw [ih bs hlen' hxas hybs]
        constructor
        · rintro (h | ⟨_, h⟩)
          · omega
          · omega
        · intro hle; right; exact ⟨rfl, by omega⟩
      · have : ¬ (a * 10 ^ bs.length + valD as ≤ b * 10 ^ bs.length + valD bs) := by
          have h1 : b * 10 ^ bs.length + valD bs < (b + 1) * 10 ^ bs.length := by nlinarith
          have h2 : (b + 1) * 10 ^ bs.length ≤ a * 10 ^ bs.length :=
            Nat.mul_le_mul_right _ (by omega)
          omega
        constructor
        · rintro (h2 | ⟨h2, _⟩) <;> omega
        · intro h2; exact absurd h2 this

theorem digitsBE_val (fuel : Nat) :
    ∀ n, n < fuel → valD (digitsBE fuel n) = n ∧ (∀ d ∈ digitsBE fuel n, d < 10) ∧
      (∀ k, n < 10 ^ k → (digitsBE fuel n).length ≤ max 1 k) := by
  induction fuel with
  | zero => intro n hn; omega
  | succ fuel ih =>
    intro n hn
    by_cases h10 : n < 10
    · refine ⟨?_, ?_, ?_⟩
      · simp [digitsBE, h10, valD]
      · intro d hd; simp [digitsBE, h10] at hd; omega
      · intro k hk
        simp [digitsBE, h10]
    · have hdiv : n / 10 < fuel := by omega
      obtain ⟨hval, hdig, hlen⟩ := ih (n / 10) hdiv
      refine ⟨?_, ?_, ?_⟩
      · rw [digitsBE]
        simp only [h10, if_false]
        rw [valD_append, hval]
        simp [valD]
        omega
      · intro d hd
        rw [digitsBE] at hd
        simp only [h10, if_false, List.mem_append, List.mem_singleton] at hd
        rcases hd with hd | hd
        · exact hdig d hd
        · omega
      · intro k hk
        rw [digitsBE]
        simp only [h10, if_false, List.length_append, List.length_singleton]
        have hk2 : 2 ≤ k := by
          by_contra hlt
          interval_cases k <;> omega
        have : n / 10 < 10 ^ (k - 1) := by
          have : 10 ^ k = 10 ^ (k - 1) * 10 := by
            conv_lhs => rw [show k = (k - 1) + 1 by omega]
            ring
          rw [this] at hk
          omega
        have := hlen (k - 1) this
        omega

theorem pyFormat09_spec (n : Nat) (h : n < 10 ^ 9) :
    (pyFormat09 n).length = 9 ∧ valD (pyFormat09 n) = n ∧ ∀ d ∈ pyFormat09 n, d < 10 := by
  obtain ⟨hval, hdig, hlen⟩ := digitsBE_val (n + 1) n (Nat.lt_succ_self n)
  have hlen9 : (digitsBE (n + 1) n).length ≤ 9 := by
    have := hlen 9 h
    omega
  have hrep0 : ∀ k, valD (List.replicate k 0) = 0 := by
    intro k
    induction k with
    | zero => rfl
    | succ k ih => simp [List.replicate, valD, ih]
  refine ⟨?_, ?_, ?_⟩
  · simp only [pyFormat09, List.length_append, List.length_replicate]
    omega
  · simp only [pyFormat09]
    rw [valD_append, hrep0]
    simpa using hval
  · intro d hd
    simp only [pyFormat09, List.mem_append, List.mem_replicate] at hd
    rcases hd with ⟨_, hd⟩ | hd
    · omega
    · exact hdig d hd

/-- Under the width-9 bounds, the string-key comparison agrees with the
line-then-column order. -/
theorem keyRel_iff_diagLe (a b : Diag) (ha1 : a.1 < 10 ^ 9) (ha2 : a.2.1 < 10 ^ 9)
    (hb1 : b.1 < 10 ^ 9) (hb2 : b.2.1 < 10 ^ 9) : keyRel a b ↔ diagLe a b := by
  obtain ⟨hl1, hv1, hd1⟩ := pyFormat09_spec a.1 ha1
  obtain ⟨hl2, hv2, hd2⟩ := pyFormat09_spec a.2.1 ha2
  obtain ⟨hl3, hv3, hd3⟩ := pyFormat09_spec b.1 hb1
  obtain ⟨hl4, hv4, hd4⟩ := pyFormat09_spec b.2.1 hb2
  have hlen : (sortKey a).length = (sortKey b).length := by
    simp [sortKey, hl1, hl2, hl3, hl4]
  have hda : ∀ d ∈ sortKey a, d < 10 := by
    intro d hd
    simp only [sortKey, List.mem_append] at hd
    rcases hd with hd | hd
    · exact hd1 d hd
    · exact hd2 d hd
  have hdb : ∀ d ∈ sortKey b, d < 10 := by
    intro d hd
    simp only [sortKey, List.mem_append] at hd
    rcases hd with hd | hd
    · exact hd3 d hd
    · exact hd4 d hd
  have hva : valD (sortKey a) = a.1 * 10 ^ 9 + a.2.1 := by
    simp only [sortKey]
    rw [valD_append, hv1, hv2, hl2]
  have hvb : valD (sortKey b) = b.1 * 10 ^ 9 + b.2.1 := by
    simp only [sortKey]
    rw [valD_append, hv3, hv4, hl4]
  rw [keyRel, lexLe_eq_valD_le _ _ hlen hda hdb, hva, hvb]
  have hpow : (10 : Nat) ^ 9 = 1000000000 := by norm_num
  rw [hpow] at *
  unfold diagLe
  constructor
  · intro hle
    rcases Nat.lt_trichotomy a.1 b.1 with h | h | h
    · left; exact h
    · right; exact ⟨h, by omega⟩
    · exfalso; omega
  · rintro (h | ⟨h, h2⟩) <;> omega

instance : IsTotal Diag keyRel :=
  ⟨fun a b => lexLe_total (sortKey a) (sortKey b)⟩

instance : IsTrans Diag keyRel :=
  ⟨fun a b c => lexLe_trans (sortKey a) (sortKey b) (sortKey c)⟩

/-- A small concrete environment used to exercise the theorems. -/
def unitEnv : LintEnv Unit where
  pep8Check := fun _ _ => [(2, 3, "E231 missing whitespace"), (1, 5, "E303 too many blank lines"), (1, 2, "W291 trailing whitespace")]
  pydocstyleCheck := fun _ => []
  compileAst := fun _ => Except.ok ()
  pyflakesCheck := fun _ _ => [(1, 2, "F401 unused import")]
  namingCheck := fun _ => []
  debuggerCheck := fun _ => []
  importOrderCheck := fun _ _ _ => []
  mccabeCheck := fun _ _ => []

/-- C1: lint returns a permutation of the collected diagnostics that is
sorted non-decreasingly by line and, for equal lines, by column, provided
every line and column fits in the nine-digit zero-padded key. -/
theorem lint_sorted_permutation {Tree : Type} (env : LintEnv Tree) (lines : String)
    (s : Settings) (st : BuiltIns)
    (hb : ∀ d ∈ collectWarnings env lines s st, d.1 < 10 ^ 9 ∧ d.2.1 < 10 ^ 9) :
    (lint env lines s st).1.Perm (collectWarnings env lines s st) ∧
      List.Pairwise diagLe (lint env lines s st).1 := by
  have hperm : (lint env lines s st).1.Perm (collectWarnings env lines s st) :=
    List.perm_insertionSort keyRel _
  refine ⟨hperm, ?_⟩
  have hs : List.Pairwise keyRel (lint env lines s st).1 :=
    List.sorted_insertionSort keyRel _
  refine hs.imp_of_mem ?_
  intro a b ha hbmem hab
  obtain ⟨ha1, ha2⟩ := hb a (hperm.subset ha)
  obtain ⟨hb1, hb2⟩ := hb b (hperm.subset hbmem)
  exact (keyRel_iff_diagLe a b ha1 ha2 hb1 hb2).mp hab

/-- The concrete syntax error used to exercise the error path. -/
def syntaxExc : PyExc where
  typeName := "SyntaxError"
  msg := "invalid syntax"
  details := Option.some (ExcDetails.full "" 3 (Option.some 7) Option.none)

/-- An environment whose compile step fails with `syntaxExc`. -/
def errEnv : LintEnv Unit where
  pep8Check := fun _ _ => [(1, 0, "W291 trailing whitespace")]
  pydocstyleCheck := fun _ => []
  compileAst := fun _ => Except.error syntaxExc
  pyflakesCheck := fun _ _ => [(9, 9, "F999 should never appear")]
  namingCheck := fun _ => [(9, 9, "N999 should never appear")]
  debuggerCheck := fun _ => [(9, 9, "T999 should never appear")]
  importOrderCheck := fun _ _ _ => [(9, 9, "I999 should never appear")]
  mccabeCheck := fun _ _ => [(9, 9, "C999 should never appear")]

/-- The environment with its five tree-based checkers replaced. -/
def withTreeCheckers {Tree : Type} (env : LintEnv Tree)
    (pf : Finset String → Tree → List Diag) (nm db : Tree → List Diag)
    (io : Tree → String → PyVal → List Diag) (mc : Int → Tree → List Diag) :
    LintEnv Tree :=
  { env with pyflakesCheck := pf, namingCheck := nm, debuggerCheck := db,
             importOrderCheck := io, mccabeCheck := mc }

/-- C2: when compiling fails, lint returns the style and docstring results
plus exactly one diagnostic for the failure, positioned at the reported
place or (1, 0), with message E901 plus the exception type and message;
the builtIns state is untouched and the result does not depend on any of
the tree-based checkers. -/
theorem lint_syntax_error_single_diag {Tree : Type} (env : LintEnv Tree) (lines : String)
    (s : Settings) (st : BuiltIns) (e : PyExc)
    (h : env.compileAst lines = Except.error e) :
    (lint env lines s st).1.Perm (pep8Part env s ++ pydocPart env lines s ++ [excWarning e]) ∧
      (lint env lines s st).2 = st ∧
      excWarning e = ((excPos e).1, orZero (excPos e).2, "E901 " ++ e.typeName ++ ": " ++ e.msg) ∧
      (e.details = Option.none → excWarning e = (1, 0, "E901 " ++ e.typeName ++ ": " ++ e.msg)) ∧
      (∀ pf nm db io mc,
        lint (withTreeCheckers env pf nm db io mc) lines s st = lint env lines s st) := by
  have hcol : collectWarnings env lines s st =
      pep8Part env s ++ pydocPart env lines s ++ [excWarning e] := by
    unfold collectWarnings
    rw [h]
  refine ⟨?_, ?_, rfl, ?_, ?_⟩
  · show (lintSort (collectWarnings env lines s st)).Perm _
    rw [hcol]
    exact List.perm_insertionSort keyRel _
  · show lintState env lines s st = st
    unfold lintState
    rw [h]
  · intro hd
    unfold excWarning excPos
    rw [hd]
    rfl
  · intro pf nm db io mc
    unfold lint lintState collectWarnings pep8Part pydocPart
    have hc : (withTreeCheckers env pf nm db io mc).compileAst lines = Except.error e := h
    rw [hc, h]
    rfl

/-- Witness for C1 at a concrete environment: the hypothesis holds and
lint returns the sorted permutation. -/
theorem lint_sorted_permutation_witness :
    (∀ d ∈ collectWarnings unitEnv "x = 1" [] ∅, d.1 < 10 ^ 9 ∧ d.2.1 < 10 ^ 9) ∧
      ((lint unitEnv "x = 1" [] ∅).1.Perm (collectWarnings unitEnv "x = 1" [] ∅) ∧
        List.Pairwise diagLe (lint unitEnv "x = 1" [] ∅).1) :=
  ⟨by decide, lint_sorted_permutation unitEnv "x = 1" [] ∅ (by decide)⟩

/-- Witness for C2 at a concrete failing compile. -/
theorem lint_syntax_error_single_diag_witness :
    errEnv.compileAst "def f(:" = Except.error syntaxExc ∧
      (lint errEnv "def f(:" [] ∅).1.Perm
        (pep8Part errEnv [] ++ pydocPart errEnv "def f(:" [] ++ [excWarning syntaxExc]) :=
  ⟨rfl, (lint_syntax_error_single_diag errEnv "def f(:" [] ∅ syntaxExc rfl).1⟩

/-- C3: a subprocess output line splits on at most its first two colons;
with integer first and second fields it yields that diagnostic, the
remainder keeping its colons; with a non-integer field or fewer than two
colons it is dropped (after being printed to the console). -/
theorem lint_external_line_parsing (line : String) :
    (∀ a b c rest, splitOnChar ':' (pyStrip line).data = a :: b :: c :: rest →
      ∀ i j, pyStrToInt? (String.mk a) = Option.some i →
        pyStrToInt? (String.mk b) = Option.some j →
        parseOutputLine line = Option.some (i, j, String.mk (joinColon (c :: rest)))) ∧
    (∀ a b c rest, splitOnChar ':' (pyStrip line).data = a :: b :: c :: rest →
      (pyStrToInt? (String.mk a) = Option.none ∨ pyStrToInt? (String.mk b) = Option.none) →
      parseOutputLine line = Option.none) ∧
    (∀ parts, splitOnChar ':' (pyStrip line).data = parts → parts.length < 3 →
      parseOutputLine line = Option.none) ∧
    parseOutputLine "3:5:E111 indentation is not a multiple of four" =
      Option.some (3, 5, "E111 indentation is not a multiple of four") := by
  refine ⟨?_, ?_, ?_, by decide⟩
  · intro a b c rest hsplit i j hi hj
    unfold parseOutputLine pySplit2
    rw [hsplit]
    show (match pyStrToInt? (String.mk a), pyStrToInt? (String.mk b) with
          | Option.some i, Option.some j =>
              Option.some (i, j, String.mk (joinColon (c :: rest)))
          | _, _ => Option.none) = _
    rw [hi, hj]
  · intro a b c rest hsplit hbad
    unfold parseOutputLine pySplit2
    rw [hsplit]
    show (match pyStrToInt? (String.mk a), pyStrToInt? (String.mk b) with
          | Option.some i, Option.some j =>
              Option.some (i, j, String.mk (joinColon (c :: rest)))
          | _, _ => Option.none) = _
    rcases hbad with hbad | hbad
    · rw [hbad]
    · rw [hbad]
      cases pyStrToInt? (String.mk a) <;> rfl
  · intro parts hsplit hlen
    unfold parseOutputLine pySplit2
    rw [hsplit]
    match parts, hlen with
    | [], _ => rfl
    | [g], _ => rfl
    | [g, h], _ => rfl

/-- Witness for C3: the documented example line parses to (3, 5, message),
and the conjunct hypotheses are exhibited on a malformed line. -/
theorem lint_external_line_parsing_witness :
    splitOnChar ':' (pyStrip "a:5:x").data = ["a".data, "5".data, "x".data] ∧
      pyStrToInt? "a" = Option.none ∧
      parseOutputLine "a:5:x" = Option.none ∧
      parseOutputLine "3:5:E111 indentation is not a multiple of four" =
        Option.some (3, 5, "E111 indentation is not a multiple of four") :=
  ⟨by decide, by decide,
    (lint_external_line_parsing "a:5:x").2.1 "a".data "5".data "x".data []
      (by decide) (Or.inl (by decide)),
    (lint_external_line_parsing "3:5:E111 indentation is not a multiple of four").2.2.2⟩

/-- C4: the loader maps ignore and select to comma-split lists, exclude to
a comma-split list under ignore_files, and max_line_length (underscore or
hyphen spelling) to an integer under pep8_max_line_length; an absent
option, or a missing section, leaves the key unset. -/
theorem load_flake8_config_options (sec : IniSection) (cfg : Flake8Settings)
    (h : load_flake8_config (Option.some sec) = Option.some cfg) :
    (∀ v, lookupNorm sec "ignore" = Option.some v → pyStrip v ≠ "" →
      cfg.ignore = Option.some (pySplitComma (pyStrip v))) ∧
    (lookupNorm sec "ignore" = Option.none → cfg.ignore = Option.none) ∧
    (∀ v, lookupNorm sec "select" = Option.some v → pyStrip v ≠ "" →
      cfg.select = Option.some (pySplitComma (pyStrip v))) ∧
    (lookupNorm sec "select" = Option.none → cfg.select = Option.none) ∧
    (∀ v, lookupNorm sec "exclude" = Option.some v → pyStrip v ≠ "" →
      cfg.ignore_files = Option.some (pySplitComma (pyStrip v))) ∧
    (lookupNorm sec "exclude" = Option.none → cfg.ignore_files = Option.none) ∧
    (∀ v i, lookupNorm sec "max_line_length" = Option.some v → pyStrip v ≠ "" →
      pyStrToInt? v = Option.some i → cfg.pep8_max_line_length = Option.some i) ∧
    (lookupNorm sec "max_line_length" = Option.none →
      cfg.pep8_max_line_length = Option.none) ∧
    (getOption sec "max_line_length" = Option.none →
      lookupNorm sec "max_line_length" = getOption sec "max-line-length") ∧
    load_flake8_config Option.none =
      Option.some { ignore := Option.none, select := Option.none,
                    ignore_files := Option.none, pep8_max_line_length := Option.none } := by
  have hmap : ∀ mll, parseIntOpt sec "max_line_length" = Option.some mll →
      cfg = { ignore := parseListOpt sec "ignore", select := parseListOpt sec "select",
              ignore_files := parseListOpt sec "exclude", pep8_max_line_length := mll } := by
    intro mll hmll
    simp only [load_flake8_config] at h
    rw [hmll] at h
    simpa using h.symm
  rcases hpi : parseIntOpt sec "max_line_length" with _ | mll
  · exfalso
    simp only [load_flake8_config] at h
    rw [hpi] at h
    simp at h
  have hcfg := hmap mll hpi
  subst hcfg
  refine ⟨?_, ?_, ?_, ?_, ?_, ?_, ?_, ?_, ?_, rfl⟩
  · intro v hv hne
    show parseListOpt sec "ignore" = _
    simp [parseListOpt, hv, hne]
  · intro hv
    show parseListOpt sec "ignore" = _
    simp [parseListOpt, hv]
  · intro v hv hne
    show parseListOpt sec "select" = _
    simp [parseListOpt, hv, hne]
  · intro hv
    show parseListOpt sec "select" = _
    simp [parseListOpt, hv]
  · intro v hv hne
    show parseListOpt sec "exclude" = _
    simp [parseListOpt, hv, hne]
  · intro hv
    show parseListOpt sec "exclude" = _
    simp [parseListOpt, hv]
  · intro v i hv hne hi
    show mll = Option.some i
    simp [parseIntOpt, hv, hne, hi] at hpi
    exact hpi.symm
  · intro hv
    show mll = Option.none
    simp [parseIntOpt, hv] at hpi
    exact hpi.symm
  · intro habs
    unfold lookupNorm
    rw [habs]
    rfl

/-- The settings dictionary the loader produces for the documented
example section. -/
def exampleCfg : Flake8Settings where
  ignore := Option.some ["E501", "E302"]
  select := Option.none
  ignore_files := Option.none
  pep8_max_line_length := Option.none

/-- Witness for C4: a section containing ignore = E501,E302 maps ignore to
the two-element list. -/
theorem load_flake8_config_options_witness :
    load_flake8_config (Option.some [("ignore", "E501,E302")]) = Option.some exampleCfg ∧
      lookupNorm [("ignore", "E501,E302")] "ignore" = Option.some "E501,E302" ∧
      pyStrip "E501,E302" ≠ "" ∧
      exampleCfg.ignore = Option.some (pySplitComma (pyStrip "E501,E302")) ∧
      exampleCfg.ignore = Option.some ["E501", "E302"] :=
  ⟨by decide, by decide, by decide,
    (load_flake8_config_options [("ignore", "E501,E302")] exampleCfg (by decide)).1
      "E501,E302" (by decide) (by decide),
    by decide⟩

/-- C5: on a successful parse, the complexity checker contribution is
present in the collected list and runs exactly when the integer-converted
complexity setting is non-negative; an unconvertible value becomes -1 and
disables the check. -/
theorem lint_complexity_gate {Tree : Type} (env : LintEnv Tree) (lines : String)
    (s : Settings) (st : BuiltIns) (tree : Tree)
    (h : env.compileAst lines = Except.ok tree) :
    (∃ pre, collectWarnings env lines s st = pre ++ mccabePart env s tree) ∧
      mccabePart env s tree =
        (if 0 ≤ complexityVal s then env.mccabeCheck (complexityVal s) tree else []) ∧
      (pyIntConv (sget s "complexity" (PyVal.int (-1))) = Option.none →
        complexityVal s = -1 ∧ mccabePart env s tree = []) := by
  refine ⟨?_, ?_, ?_⟩
  · refine ⟨pep8Part env s ++ pydocPart env lines s ++
      (pyflakesPart env s st tree ++ namingPart env s tree ++ debuggerPart env s tree ++
        importOrderPart env lines s tree), ?_⟩
    unfold collectWarnings
    rw [h]
    simp [List.append_assoc]
  · by_cases h0 : (0 : Int) ≤ complexityVal s
    · rw [if_pos h0]
      unfold mccabePart
      rw [if_pos (by omega)]
    · rw [if_neg h0]
      unfold mccabePart
      rw [if_neg (by omega)]
  · intro hnone
    have hc : complexityVal s = -1 := by
      unfold complexityVal
      rw [hnone]
    refine ⟨hc, ?_⟩
    unfold mccabePart
    rw [hc]
    simp

/-- Witness for C5 at a concrete unconvertible complexity setting. -/
theorem lint_complexity_gate_witness :
    unitEnv.compileAst "x" = Except.ok () ∧
      pyIntConv (sget [("complexity", PyVal.str "abc")] "complexity" (PyVal.int (-1))) =
        Option.none ∧
      complexityVal [("complexity", PyVal.str "abc")] = -1 ∧
      mccabePart unitEnv [("complexity", PyVal.str "abc")] () = [] :=
  ⟨rfl, by decide,
    (lint_complexity_gate unitEnv "x" [("complexity", PyVal.str "abc")] ∅ () rfl).2.2
      (by decide)⟩

/-- The line-then-column order on subprocess diagnostics. -/
def extDiagLe (a b : ExtDiag) : Prop := a.1 < b.1 ∨ (a.1 = b.1 ∧ a.2.1 ≤ b.2.1)

instance : DecidableRel extDiagLe := fun a b => by
  unfold extDiagLe
  infer_instance

/-- C6: the out-of-process runner returns exactly the parsed lines of the
child output, in output order, with no sorting: parsing distributes over
the output, and some outputs parse to an unsorted list. -/
theorem lint_external_preserves_child_order :
    (∀ child (lines : String) (s : Settings) (interpreter linter : String),
      lint_external child lines s interpreter linter =
        List.filterMap parseOutputLine (child (buildArgs interpreter linter s) lines)) ∧
    (∀ out1 out2, parseExternalOutput (out1 ++ out2) =
      parseExternalOutput out1 ++ parseExternalOutput out2) ∧
    (∃ out, ¬ List.Pairwise extDiagLe (parseExternalOutput out)) := by
  refine ⟨fun _ _ _ _ _ => rfl,
    fun out1 out2 => List.filterMap_append out1 out2 parseOutputLine, ?_⟩
  exact ⟨["5:0:b", "1:0:a"], by decide⟩

/-- C7: with the enable keys absent, lint runs pep8, pyflakes, naming and
the debugger checker, and does not run pydocstyle or import-order. -/
theorem lint_default_checker_set {Tree : Type} (env : LintEnv Tree) (lines : String)
    (s : Settings) (st : BuiltIns) (tree : Tree)
    (h1 : s.lookup "pep8" = Option.none) (h2 : s.lookup "pyflakes" = Option.none)
    (h3 : s.lookup "naming" = Option.none) (h4 : s.lookup "debugger" = Option.none)
    (h5 : s.lookup "pydocstyle" = Option.none) (h6 : s.lookup "import_order" = Option.none)
    (hc : env.compileAst lines = Except.ok tree) :
    runsPep8 s = true ∧ runsPyflakes s = true ∧ runsNaming s = true ∧
      runsDebugger s = true ∧ runsPydocstyle s = false ∧ runsImportOrder s = false ∧
      collectWarnings env lines s st =
        env.pep8Check ["DIRTY-HACK"] (sget s "pep8_max_line_length" PyVal.none) ++
          (env.pyflakesCheck (pyflakesState s st) tree ++
            (env.namingCheck tree ++ (env.debuggerCheck tree ++ mccabePart env s tree))) := by
  have e1 : runsPep8 s = true := by simp [runsPep8, sget, h1, pyTruthy]
  have e2 : runsPyflakes s = true := by simp [runsPyflakes, sget, h2, pyTruthy]
  have e3 : runsNaming s = true := by simp [runsNaming, sget, h3, pyTruthy]
  have e4 : runsDebugger s = true := by simp [runsDebugger, sget, h4, pyTruthy]
  have e5 : runsPydocstyle s = false := by simp [runsPydocstyle, sget, h5, pyTruthy]
  have e6 : runsImportOrder s = false := by simp [runsImportOrder, sget, h6, pyTruthy]
  refine ⟨e1, e2, e3, e4, e5, e6, ?_⟩
  unfold collectWarnings
  rw [hc]
  unfold pep8Part pydocPart pyflakesPart namingPart debuggerPart importOrderPart
  rw [e1, e2, e3, e4, e5, e6]
  simp

/-- Witness for C7 with the empty settings mapping. -/
theorem lint_default_checker_set_witness :
    List.lookup "pep8" ([] : Settings) = Option.none ∧
      (runsPep8 [] = true ∧ runsPyflakes [] = true ∧ runsNaming [] = true ∧
        runsDebugger [] = true ∧ runsPydocstyle [] = false ∧ runsImportOrder [] = false ∧
        collectWarnings unitEnv "x" [] ∅ =
          unitEnv.pep8Check ["DIRTY-HACK"] (sget [] "pep8_max_line_length" PyVal.none) ++
            (unitEnv.pyflakesCheck (pyflakesState [] ∅) () ++
              (unitEnv.namingCheck () ++ (unitEnv.debuggerCheck () ++ mccabePart unitEnv [] ())))) :=
  ⟨rfl, lint_default_checker_set unitEnv "x" [] ∅ () rfl rfl rfl rfl rfl rfl rfl⟩

/-- C8: a lint call with a non-empty builtins setting leaves the
process-wide builtIns set extended with those names, and a later call
without extra builtins keeps that extended set and hands it to the
bug finder. -/
theorem lint_builtins_state_leak {T U : Type} (env1 : LintEnv T) (env2 : LintEnv U)
    (lines1 lines2 : String) (s1 s2 : Settings) (st : BuiltIns) (bs : List String)
    (t1 : T) (t2 : U)
    (h1 : sget s1 "builtins" PyVal.none = PyVal.strList bs) (hne : bs ≠ [])
    (hp1 : runsPyflakes s1 = true) (hc1 : env1.compileAst lines1 = Except.ok t1)
    (h2 : sget s2 "builtins" PyVal.none = PyVal.none) (hp2 : runsPyflakes s2 = true)
    (hc2 : env2.compileAst lines2 = Except.ok t2) :
    (lint env1 lines1 s1 st).2 = st ∪ bs.toFinset ∧
      (∀ x ∈ bs, x ∈ (lint env1 lines1 s1 st).2) ∧
      (lint env2 lines2 s2 ((lint env1 lines1 s1 st).2)).2 = (lint env1 lines1 s1 st).2 ∧
      (∃ pre suf, collectWarnings env2 lines2 s2 ((lint env1 lines1 s1 st).2) =
        pre ++ env2.pyflakesCheck ((lint env1 lines1 s1 st).2) t2 ++ suf) := by
  have hstate : (lint env1 lines1 s1 st).2 = st ∪ bs.toFinset := by
    show lintState env1 lines1 s1 st = _
    unfold lintState
    rw [hc1]
    unfold pyflakesState
    rw [hp1, h1]
    simp [pyTruthy, pyIter, hne]
  have hkeep : pyflakesState s2 ((lint env1 lines1 s1 st).2) = (lint env1 lines1 s1 st).2 := by
    unfold pyflakesState
    rw [h2]
    simp [pyTruthy]
  refine ⟨hstate, ?_, ?_, ?_⟩
  · intro x hx
    rw [hstate]
    exact Finset.mem_union_right st (List.mem_toFinset.mpr hx)
  · show lintState env2 lines2 s2 ((lint env1 lines1 s1 st).2) = (lint env1 lines1 s1 st).2
    unfold lintState
    rw [hc2]
    exact hkeep
  · refine ⟨pep8Part env2 s2 ++ pydocPart env2 lines2 s2,
      namingPart env2 s2 t2 ++ debuggerPart env2 s2 t2 ++
        importOrderPart env2 lines2 s2 t2 ++ mccabePart env2 s2 t2, ?_⟩
    unfold collectWarnings
    rw [hc2]
    unfold pyflakesPart
    rw [hp2, hkeep]
    simp [List.append_assoc]

/-- The first-call settings for the state-leak witness. -/
def leakSettings : Settings := [("builtins", PyVal.strList ["xrange", "unicode"])]

/-- Witness for C8 at a concrete pair of calls. -/
theorem lint_builtins_state_leak_witness :
    sget leakSettings "builtins" PyVal.none = PyVal.strList ["xrange", "unicode"] ∧
      (lint unitEnv "a = 1" leakSettings ∅).2 = ∅ ∪ (["xrange", "unicode"] : List String).toFinset ∧
      (lint unitEnv "b = 2" [] ((lint unitEnv "a = 1" leakSettings ∅).2)).2 =
        (lint unitEnv "a = 1" leakSettings ∅).2 :=
  ⟨rfl,
    (lint_builtins_state_leak unitEnv unitEnv "a = 1" "b = 2" leakSettings [] ∅
      ["xrange", "unicode"] () () rfl (by decide) rfl rfl rfl rfl rfl).1,
    (lint_builtins_state_leak unitEnv unitEnv "a = 1" "b = 2" leakSettings [] ∅
      ["xrange", "unicode"] () () rfl (by decide) rfl rfl rfl rfl rfl).2.2.1⟩

/-- C9: two settings mappings that differ only on the ignore, select and
ignore_files keys produce identical lint results; the style checker is
invoked with the fixed sentinel ignore list. -/
theorem lint_ignores_select_ignore_settings {Tree : Type} (env : LintEnv Tree)
    (lines : String) (st : BuiltIns) (s1 s2 : Settings)
    (h : ∀ k, k ≠ "ignore" → k ≠ "select" → k ≠ "ignore_files" →
      s1.lookup k = s2.lookup k) :
    lint env lines s1 st = lint env lines s2 st ∧
      pep8Part env s1 =
        (if runsPep8 s1 then
            env.pep8Check ["DIRTY-HACK"] (sget s1 "pep8_max_line_length" PyVal.none)
          else []) := by
  have hs : ∀ k d, k ≠ "ignore" → k ≠ "select" → k ≠ "ignore_files" →
      sget s1 k d = sget s2 k d := by
    intro k d hk1 hk2 hk3
    unfold sget
    rw [h k hk1 hk2 hk3]
  refine ⟨?_, rfl⟩
  unfold lint lintState collectWarnings pep8Part pydocPart pyflakesPart pyflakesState
    namingPart debuggerPart importOrderPart mccabePart complexityVal
    runsPep8 runsPydocstyle runsPyflakes runsNaming runsDebugger runsImportOrder
  rw [hs "pep8" (PyVal.bool true) (by decide) (by decide) (by decide),
    hs "pep8_max_line_length" PyVal.none (by decide) (by decide) (by decide),
    hs "pydocstyle" (PyVal.bool false) (by decide) (by decide) (by decide),
    hs "pyflakes" (PyVal.bool true) (by decide) (by decide) (by decide),
    hs "builtins" PyVal.none (by decide) (by decide) (by decide),
    hs "naming" (PyVal.bool true) (by decide) (by decide) (by decide),
    hs "debugger" (PyVal.bool true) (by decide) (by decide) (by decide),
    hs "import_order" (PyVal.bool false) (by decide) (by decide) (by decide),
    hs "import_order_style" PyVal.none (by decide) (by decide) (by decide),
    hs "complexity" (PyVal.int (-1)) (by decide) (by decide) (by decide)]

/-- A settings mapping carrying ignore, select and ignore_files values. -/
def ignoredKeysA : Settings :=
  [("ignore", PyVal.strList ["E501"]), ("select", PyVal.strList ["E2"]),
   ("ignore_files", PyVal.strList ["test.py"]), ("complexity", PyVal.int 5)]

/-- The same mapping with the three unread keys removed. -/
def ignoredKeysB : Settings := [("complexity", PyVal.int 5)]

/-- Witness for C9 at a concrete pair of settings mappings. -/
theorem lint_ignores_select_ignore_settings_witness :
    (∀ k, k ≠ "ignore" → k ≠ "select" → k ≠ "ignore_files" →
      List.lookup k ignoredKeysA = List.lookup k ignoredKeysB) ∧
      lint unitEnv "x" ignoredKeysA ∅ = lint unitEnv "x" ignoredKeysB ∅ := by
  have hk : ∀ k, k ≠ "ignore" → k ≠ "select" → k ≠ "ignore_files" →
      List.lookup k ignoredKeysA = List.lookup k ignoredKeysB := by
    intro k hk1 hk2 hk3
    have b1 : (k == "ignore") = false := beq_eq_false_iff_ne.mpr hk1
    have b2 : (k == "select") = false := beq_eq_false_iff_ne.mpr hk2
    have b3 : (k == "ignore_files") = false := beq_eq_false_iff_ne.mpr hk3
    simp [ignoredKeysA, ignoredKeysB, List.lookup, b1, b2, b3]
  exact ⟨hk,
    (lint_ignores_select_ignore_settings unitEnv "x" ∅ ignoredKeysA ignoredKeysB hk).1⟩

/-- C10: the subprocess command line always carries --import-order-style
followed by a value, also when the import-order check is disabled; the
value is the configured style when it is exactly cryptography or google,
and cryptography otherwise. -/
theorem lint_external_import_order_style_flag (interpreter linter : String) (s : Settings) :
    (∃ pre, buildArgs interpreter linter s =
      pre ++ ["--import-order-style", iosStyleArg s, "--complexity",
        pyStr (sget s "complexity" (PyVal.int (-1)))]) ∧
      (sget s "import_order_style" PyVal.none = PyVal.str "cryptography" →
        iosStyleArg s = "cryptography") ∧
      (sget s "import_order_style" PyVal.none = PyVal.str "google" →
        iosStyleArg s = "google") ∧
      (∀ v, sget s "import_order_style" PyVal.none = PyVal.str v →
        v ≠ "cryptography" → v ≠ "google" → iosStyleArg s = "cryptography") ∧
      (∀ v, sget s "import_order_style" PyVal.none = v → (∀ w, v ≠ PyVal.str w) →
        iosStyleArg s = "cryptography") := by
  refine ⟨?_, ?_, ?_, ?_, ?_⟩
  · refine ⟨[interpreter, linter] ++
      (if runsPyflakes s then
          ["--pyflakes"] ++
            (if pyTruthy (sget s "builtins" PyVal.none) then
                ["--builtins", pyJoinComma (sget s "builtins" PyVal.none)]
              else [])
        else []) ++
      (if runsPep8 s then
          ["--pep8", "--pep8-max-line-length",
            pyStr (sget s "pep8_max_line_length" (PyVal.int 79))]
        else []) ++
      (if runsPydocstyle s then ["--pydocstyle"] else []) ++
      (if runsNaming s then ["--naming"] else []) ++
      (if runsDebugger s then ["--debugger"] else []) ++
      (if runsImportOrder s then ["--import-order"] else []), ?_⟩
    unfold buildArgs
    simp [List.append_assoc]
  · intro hv
    unfold iosStyleArg
    rw [hv]
    rfl
  · intro hv
    unfold iosStyleArg
    rw [hv]
    rfl
  · intro v hv hne1 hne2
    unfold iosStyleArg
    rw [hv]
    simp [hne1, hne2]
  · intro v hv hw
    unfold iosStyleArg
    rw [hv]
    cases v with
    | str w => exact absurd rfl (hw w)
    | none => rfl
    | bool b => rfl
    | int i => rfl
    | strList l => rfl

/-- Witness for C10 at a configured google style. -/
theorem lint_external_import_order_style_flag_witness :
    sget [("import_order_style", PyVal.str "google")] "import_order_style" PyVal.none =
      PyVal.str "google" ∧
      iosStyleArg [("import_order_style", PyVal.str "google")] = "google" :=
  ⟨rfl,
    (lint_external_import_order_style_flag "python" "lint.py"
      [("import_order_style", PyVal.str "google")]).2.2.1 rfl⟩

end Flake8Worker
